import Mathlib

/-!
Verification of the `llm-proxy` HTTP gateway (FastAPI application under
`app/`).  The development shallowly embeds the pure content of the
repository's request validator (`app/routers/proxy.py`), the sliding-window
rate limiter (`app/main.py` and `app/middleware/rate_limit.py`), the
model-to-provider resolver (`app/providers/registry.py`), the
OpenAI-compatible adapter's HTTP-error classification and SSE stream parsing
(`app/providers/openai_compat.py`), and the gateway middleware pipeline with
its exception handling (`app/main.py`).

Python strings are modelled over the ASCII fragment the repository
manipulates: `str.strip` strips the ASCII whitespace characters, and
`str.lower` lowers ASCII letters.  Timestamps (Python floats from
`time.time()`) are modelled by a linear ordered field where only ordering
and subtraction matter; theorems are stated over `ℚ` or over a generic
ordered ring as appropriate.
-/

/-- Python `str.isspace` characters in the ASCII range: the whitespace set
stripped by `str.strip()`. -/
def pyIsSpace (c : Char) : Bool :=
  c = ' ' || c = '\t' || c = '\n' || c = '\r' || c = Char.ofNat 11 || c = Char.ofNat 12

/-- Strip `pyIsSpace` characters from both ends of a character list
(Python `str.strip()`). -/
def pyStripL (cs : List Char) : List Char :=
  ((cs.dropWhile pyIsSpace).reverse.dropWhile pyIsSpace).reverse

/-- Python `s.strip()`. -/
def pyStrip (s : String) : String :=
  String.mk (pyStripL s.toList)

/-- Python `s.lower()` (ASCII letters). -/
def pyLower (s : String) : String :=
  String.mk (s.toList.map Char.toLower)

/-- `listLeads pat hay` holds when `pat` is a prefix of `hay`. -/
def listLeads : List Char → List Char → Bool
  | [], _ => true
  | _ :: _, [] => false
  | p :: ps, h :: hs => p = h && listLeads ps hs

/-- `listHasSub pat hay` holds when `pat` occurs contiguously inside `hay`
(Python's `pat in hay` on strings). -/
def listHasSub : List Char → List Char → Bool
  | pat, [] => pat.isEmpty
  | pat, c :: hs => listLeads pat (c :: hs) || listHasSub pat hs

/-- Python `pat in hay` for strings. -/
def pyContains (hay pat : String) : Bool :=
  listHasSub pat.toList hay.toList

/-- Python `s.startswith(pre)`. -/
def pyStarts (s pre : String) : Bool :=
  listLeads pre.toList s.toList

/-- Python `s.endswith(suf)`. -/
def pyEnds (s suf : String) : Bool :=
  listLeads suf.toList.reverse s.toList.reverse

/-- Python `s[n:]` for a nonnegative `n`. -/
def pyDropChars (n : Nat) (s : String) : String :=
  String.mk (s.toList.drop n)

/-- Python `s[:-1]` (drop the final character). -/
def pyDropLast (s : String) : String :=
  String.mk s.toList.dropLast

/-- Python `s.replace(" ", "")`: remove every space character. -/
def pyRemoveSpaces (s : String) : String :=
  String.mk (s.toList.filter (fun c => !(c = ' ')))

/-- Python `s.split(",")` (always at least one field; `""` gives `[""]`). -/
def splitCommaL : List Char → List (List Char)
  | [] => [[]]
  | c :: cs =>
    if c = ',' then [] :: splitCommaL cs
    else
      match splitCommaL cs with
      | [] => [[c]]
      | g :: gs => (c :: g) :: gs

/-- Python `s.split(",")` on strings. -/
def pySplitComma (s : String) : List String :=
  (splitCommaL s.toList).map String.mk

/-- Python `s.split("=", 1)` when `"=" in s`: the pieces before and after the
first `'='`. -/
def splitEqL : List Char → List Char × List Char
  | [] => ([], [])
  | c :: cs =>
    if c = '=' then ([], cs)
    else
      let r := splitEqL cs
      (c :: r.1, r.2)

/-- Accumulate decimal digits; fails on a non-digit. -/
def digitsToNatAux : Nat → List Char → Option Nat
  | acc, [] => some acc
  | acc, c :: cs =>
    if c.isDigit then digitsToNatAux (acc * 10 + (c.toNat - 48)) cs
    else none

/-- Python `int(s)` on decimal strings: optional surrounding whitespace,
optional sign, then digits; `None`/malformed input gives `none`
(`ValueError`). -/
def pyInt? (s : String) : Option Int :=
  match pyStripL s.toList with
  | '-' :: rest =>
    if rest = [] then none else (digitsToNatAux 0 rest).map (fun n => -(n : Int))
  | '+' :: rest =>
    if rest = [] then none else (digitsToNatAux 0 rest).map (fun n => (n : Int))
  | rest =>
    if rest = [] then none else (digitsToNatAux 0 rest).map (fun n => (n : Int))

/-- JSON values as produced by Python's `json.loads`.  A number is kept as a
mantissa/decimal-exponent pair (value `m * 10 ^ e`), which is enough for the
gateway: the code only ever tests numbers for truthiness. -/
inductive Json where
  | null : Json
  | bool : Bool → Json
  | num : Int → Int → Json
  | str : String → Json
  | arr : List Json → Json
  | obj : List (String × Json) → Json
deriving Inhabited

/-- JSON inter-token whitespace. -/
def jsonWs (c : Char) : Bool :=
  c = ' ' || c = '\t' || c = '\n' || c = '\r'

/-- Drop JSON whitespace. -/
def skipWs (cs : List Char) : List Char :=
  cs.dropWhile jsonWs

/-- Hexadecimal digit value. -/
def hexVal (c : Char) : Option Nat :=
  if c.isDigit then some (c.toNat - 48)
  else if 'a' ≤ c ∧ c ≤ 'f' then some (c.toNat - 87)
  else if 'A' ≤ c ∧ c ≤ 'F' then some (c.toNat - 55)
  else none

/-- Decode a single-character JSON escape. -/
def escChar (e : Char) : Option Char :=
  match e with
  | '"' => some '"'
  | '\\' => some '\\'
  | '/' => some '/'
  | 'b' => some (Char.ofNat 8)
  | 'f' => some (Char.ofNat 12)
  | 'n' => some '\n'
  | 'r' => some '\r'
  | 't' => some '\t'
  | _ => none

/-- Parse the body of a JSON string after the opening quote, returning the
decoded characters and the remainder after the closing quote.  Mirrors
`json.loads`: the standard escapes and `\uXXXX` are decoded, a raw control
character is an error. -/
def parseJStrAux : List Char → Option (List Char × List Char)
  | [] => none
  | '"' :: rest => some ([], rest)
  | '\\' :: 'u' :: a :: b :: c :: d :: rest =>
    match hexVal a, hexVal b, hexVal c, hexVal d with
    | some ha, some hb, some hc, some hd =>
      (parseJStrAux rest).map
        (fun p => (Char.ofNat (((ha * 16 + hb) * 16 + hc) * 16 + hd) :: p.1, p.2))
    | _, _, _, _ => none
  | '\\' :: e :: rest =>
    (match escChar e with
     | some ch => (parseJStrAux rest).map (fun p => (ch :: p.1, p.2))
     | none => none)
  | c :: rest =>
    if c.toNat < 32 then none
    else (parseJStrAux rest).map (fun p => (c :: p.1, p.2))

/-- Numeric value of a digit list. -/
def natOfDigits (ds : List Char) : Nat :=
  ds.foldl (fun a c => a * 10 + (c.toNat - 48)) 0

/-- Parse an optional JSON exponent part (`[eE][+-]?digits`), returning the
exponent (0 when absent) and the remainder. -/
def parseJExp (cs : List Char) : Option (Int × List Char) :=
  match cs with
  | 'e' :: rest => parseJExpDigits rest
  | 'E' :: rest => parseJExpDigits rest
  | _ => some (0, cs)
where
  parseJExpDigits (rest : List Char) : Option (Int × List Char) :=
    match rest with
    | '+' :: r2 =>
      let p := r2.span Char.isDigit
      if p.1 = [] then none else some ((natOfDigits p.1 : Int), p.2)
    | '-' :: r2 =>
      let p := r2.span Char.isDigit
      if p.1 = [] then none else some (-(natOfDigits p.1 : Int), p.2)
    | r2 =>
      let p := r2.span Char.isDigit
      if p.1 = [] then none else some ((natOfDigits p.1 : Int), p.2)

/-- Parse a JSON number starting at `cs` (which may begin with `'-'`),
following the JSON grammar: no leading zeros, an optional fraction, an
optional exponent. -/
def parseJNum (cs : List Char) : Option (Json × List Char) :=
  let sign : Int × List Char := match cs with
    | '-' :: r => (-1, r)
    | r => (1, r)
  let intSpan := sign.2.span Char.isDigit
  if intSpan.1 = [] then none
  else if intSpan.1.length > 1 ∧ intSpan.1.headD '0' = '0' then none
  else
    match intSpan.2 with
    | '.' :: r2 =>
      let fracSpan := r2.span Char.isDigit
      if fracSpan.1 = [] then none
      else
        (parseJExp fracSpan.2).map (fun pe =>
          (Json.num (sign.1 * (natOfDigits (intSpan.1 ++ fracSpan.1) : Int))
            (pe.1 - (fracSpan.1.length : Int)), pe.2))
    | r2 =>
      (parseJExp r2).map (fun pe =>
        (Json.num (sign.1 * (natOfDigits intSpan.1 : Int)) pe.1, pe.2))

mutual

/-- Fuel-indexed JSON value parser (the fuel only bounds nesting depth). -/
def parseJVal : Nat → List Char → Option (Json × List Char)
  | 0, _ => none
  | fuel + 1, cs =>
    match skipWs cs with
    | [] => none
    | 'n' :: rest =>
      if listLeads ['u', 'l', 'l'] rest then some (Json.null, rest.drop 3) else none
    | 't' :: rest =>
      if listLeads ['r', 'u', 'e'] rest then some (Json.bool true, rest.drop 3) else none
    | 'f' :: rest =>
      if listLeads ['a', 'l', 's', 'e'] rest then some (Json.bool false, rest.drop 4)
      else none
    | '"' :: rest =>
      (parseJStrAux rest).map (fun p => (Json.str (String.mk p.1), p.2))
    | '[' :: rest =>
      (match skipWs rest with
       | ']' :: r2 => some (Json.arr [], r2)
       | _ => (parseJElems fuel rest).map (fun p => (Json.arr p.1, p.2)))
    | '{' :: rest =>
      (match skipWs rest with
       | '}' :: r2 => some (Json.obj [], r2)
       | _ => (parseJMembers fuel rest).map (fun p => (Json.obj p.1, p.2)))
    | c :: rest =>
      if c = '-' ∨ c.isDigit then parseJNum (c :: rest) else none

/-- Parse one-or-more comma-separated array elements up to `']'`. -/
def parseJElems : Nat → List Char → Option (List Json × List Char)
  | 0, _ => none
  | fuel + 1, cs =>
    match parseJVal fuel cs with
    | none => none
    | some (v, r1) =>
      match skipWs r1 with
      | ',' :: r2 => (parseJElems fuel r2).map (fun p => (v :: p.1, p.2))
      | ']' :: r2 => some ([v], r2)
      | _ => none

/-- Parse one-or-more comma-separated object members up to `'}'`. -/
def parseJMembers : Nat → List Char → Option (List (String × Json) × List Char)
  | 0, _ => none
  | fuel + 1, cs =>
    match skipWs cs with
    | '"' :: rest =>
      match parseJStrAux rest with
      | none => none
      | some (kcs, r1) =>
        match skipWs r1 with
        | ':' :: r2 =>
          match parseJVal fuel r2 with
          | none => none
          | some (v, r3) =>
            match skipWs r3 with
            | ',' :: r4 =>
              (parseJMembers fuel r4).map (fun p => ((String.mk kcs, v) :: p.1, p.2))
            | '}' :: r4 => some ([(String.mk kcs, v)], r4)
            | _ => none
        | _ => none
    | _ => none

end

/-- Python `json.loads`: parse a complete JSON document, rejecting trailing
garbage.  (Python's non-standard `NaN`/`Infinity` extensions are not used by
the gateway and are not modelled.) -/
def parseJson (s : String) : Option Json :=
  match parseJVal (s.toList.length + 1) s.toList with
  | some (v, rest) => if skipWs rest = [] then some v else none
  | none => none

/-- Python truthiness of a decoded JSON value (`if x:`). -/
def pyTruthy : Json → Bool
  | Json.null => false
  | Json.bool b => b
  | Json.num m _ => !(m == 0)
  | Json.str st => !(st == "")
  | Json.arr xs => !xs.isEmpty
  | Json.obj kvs => !kvs.isEmpty

/-- Python `dict.get(k)` over a decoded JSON object: `none` models the
`AttributeError` raised when `.get` is called on a non-dict; a missing key
gives `Json.null` (Python `None`).  For duplicate keys `json.loads` keeps the
last binding. -/
def pyGet (j : Json) (k : String) : Option Json :=
  match j with
  | Json.obj kvs =>
    some (match (kvs.filter (fun kv => kv.1 = k)).getLast? with
          | some kv => kv.2
          | none => Json.null)
  | _ => none

/-- Python `x[0]` on a decoded JSON value: defined for a nonempty list and
for a nonempty string (giving its first character); everything else raises
(`IndexError`/`TypeError`/`KeyError`), modelled as `none`. -/
def pyIndex0 : Json → Option Json
  | Json.arr (x :: _) => some x
  | Json.str st =>
    match st.toList with
    | c :: _ => some (Json.str (String.mk [c]))
    | [] => none
  | _ => none

/-- One step of `OpenAICompatibleProvider.chat_stream`'s per-line loop
(`app/providers/openai_compat.py`, lines 340-372), after the blank-line skip
and `data: ` prefix handling: what the loop body does with the extracted
payload string. -/
inductive LineStep where
  | skip : LineStep
  | done : LineStep
  | yielded : Json → LineStep
  | raised : LineStep

/-- The loop body on the payload string `ds` (the line with any `data: `
prefix already stripped): `[DONE]` terminates; a JSON parse failure is
silently skipped; otherwise `choices[0].delta.content` is extracted with
Python truthiness/`or` semantics and yielded only when truthy.  `raised`
models an uncaught `AttributeError`/`TypeError`/`IndexError` from a frame of
an unexpected shape (only `json.JSONDecodeError` is caught). -/
def processPayload (ds : String) : LineStep :=
  if ds = "[DONE]" then LineStep.done
  else
    match parseJson ds with
    | none => LineStep.skip
    | some obj =>
      match pyGet obj "choices" with
      | none => LineStep.raised
      | some v =>
        let choices := if pyTruthy v then v else Json.arr []
        if !(pyTruthy choices) then LineStep.skip
        else
          match pyIndex0 choices with
          | none => LineStep.raised
          | some c0 =>
            match pyGet c0 "delta" with
            | none => LineStep.raised
            | some dv =>
              let delta := if pyTruthy dv then dv else Json.obj []
              match pyGet delta "content" with
              | none => LineStep.raised
              | some content =>
                if pyTruthy content then LineStep.yielded content else LineStep.skip

/-- The loop body on a raw SSE line: blank lines are skipped; a `data: `
prefix is stripped (with `strip()`) before the payload is processed. -/
def processLine (line : String) : LineStep :=
  if line = "" then LineStep.skip
  else
    let ds := if pyStarts line "data: " then pyStrip (pyDropChars 6 line) else line
    processPayload ds

/-- Why a run of `chat_stream`'s line loop stopped. -/
inductive StreamEnd where
  | doneSentinel : StreamEnd
  | endOfInput : StreamEnd
  | raised : StreamEnd

/-- Run the `chat_stream` line loop over a finite sequence of input lines,
collecting the yielded fragments and the way the loop ended. -/
def runStream : List String → List Json × StreamEnd
  | [] => ([], StreamEnd.endOfInput)
  | l :: rest =>
    match processLine l with
    | LineStep.skip => runStream rest
    | LineStep.done => ([], StreamEnd.doneSentinel)
    | LineStep.raised => ([], StreamEnd.raised)
    | LineStep.yielded c =>
      let r := runStream rest
      (c :: r.1, r.2)

/-- Concatenate the string fragments yielded by a stream run. -/
def fragConcat (xs : List Json) : String :=
  xs.foldl (fun acc j => acc ++ (match j with | Json.str s => s | _ => "")) ""

/-- The typed error taxonomy of `app/providers/base.py`, plus
`httpStatus` for the opaque `httpx.HTTPStatusError` that
`response.raise_for_status()` raises on an unclassified non-2xx status. -/
inductive ProviderExc where
  | modelNotFound (msg : String)
  | unauthorized (msg : String)
  | forbidden (msg : String)
  | rateLimited (msg : String) (retryAfterSeconds : Option Int)
  | httpStatus (status : Nat)

/-- Python `message or default` for strings. -/
def strOr (message dflt : String) : String :=
  if message = "" then dflt else message

/-- Status classification of `OpenAICompatibleProvider.chat`
(`app/providers/openai_compat.py`, lines 160-199; the streaming path at
lines 298-339 is identical): given the response status, the error message
already extracted from the body (`str(err.get("error") or err.get("message")
or "")`), the raw `Retry-After` header if any, and the requested model name,
return the exception raised, or `none` for a 2xx response. -/
def classifyBackendStatus (status : Nat) (message : String)
    (retryAfterHeader : Option String) (model : String) : Option ProviderExc :=
  if status = 401 then some (ProviderExc.unauthorized (strOr message "Unauthorized"))
  else if status = 403 then some (ProviderExc.forbidden (strOr message "Forbidden"))
  else if status = 429 then
    some (ProviderExc.rateLimited (strOr message "Rate Limited")
      (retryAfterHeader.bind pyInt?))
  else if status = 404 then
    (let lowerMsg := pyLower message
     if (pyContains lowerMsg "model" || pyContains lowerMsg "not found" ||
         pyContains lowerMsg "unknown model")
        && pyContains lowerMsg (pyRemoveSpaces model) then
       some (ProviderExc.modelNotFound (strOr message ("Model not found: " ++ model)))
     else some (ProviderExc.httpStatus 404))
  else if 200 ≤ status ∧ status ≤ 299 then none
  else some (ProviderExc.httpStatus status)

/-- A chat message (`app/schemas/chat.py`). -/
structure Message where
  role : String
  content : String
deriving DecidableEq

/-- A chat request (`app/schemas/chat.py`).  Floats are modelled as `ℚ`. -/
structure ChatRequest where
  model : String
  messages : List Message
  temperature : Option ℚ := none
  top_p : Option ℚ := none
  max_tokens : Option Int := none
  frequency_penalty : Option ℚ := none
  presence_penalty : Option ℚ := none
  stop : Option (Sum String (List String)) := none
  n : Option Int := none

/-- Role normalization `(msg.role or "").strip().lower()`. -/
def normRole (r : String) : String :=
  pyLower (pyStrip r)

/-- The in-place mutation applied to a message that passes validation. -/
def normMsg (m : Message) : Message :=
  { role := normRole m.role, content := pyStrip m.content }

/-- `role in {"system", "user", "assistant"}`. -/
def allowedRole (r : String) : Bool :=
  r = "system" || r = "user" || r = "assistant"

/-- The error `_validate_request` raises for one message, if any: the role
check comes before the content check. -/
def msgCheckError (m : Message) : Option String :=
  if !(allowedRole (normRole m.role)) then some ("Invalid role: " ++ m.role)
  else if pyStrip m.content = "" then some "Message content must not be empty"
  else none

/-- The message loop of `_validate_request` (`app/routers/proxy.py`, lines
35-46): messages are checked and mutated in order; on the first failure the
loop stops, leaving the already-processed prefix mutated and the rest (the
failing message included) untouched. -/
def normalizeMessages : List Message → List Message × Option String
  | [] => ([], none)
  | m :: rest =>
    match msgCheckError m with
    | some e => (m :: rest, some e)
    | none =>
      let r := normalizeMessages rest
      (normMsg m :: r.1, r.2)

/-- `_validate_request` (`app/routers/proxy.py`, lines 26-74) as a pure
state-passing function: returns the request as mutated so far together with
the detail string of the `HTTPException(400)` raised, if any. -/
def validate_request (r : ChatRequest) : ChatRequest × Option String :=
  if pyStrip r.model = "" then (r, some "Model must not be empty")
  else if r.messages.isEmpty then (r, some "Messages must not be empty")
  else
    let nm := normalizeMessages r.messages
    let r1 := { r with messages := nm.1 }
    match nm.2 with
    | some e => (r1, some e)
    | none =>
      if (nm.1.getLastD { role := "", content := "" }).role = "assistant" then
        (r1, some "Last message must not be from role \"assistant\"")
      else if r.temperature.any (fun x => !(decide ((0:ℚ) ≤ x) && decide (x ≤ 2))) then
        (r1, some "temperature must be between 0 and 2")
      else if r.top_p.any (fun x => !(decide ((0:ℚ) ≤ x) && decide (x ≤ 1))) then
        (r1, some "top_p must be between 0 and 1")
      else if r.max_tokens.any (fun v => decide (v ≤ 0)) then
        (r1, some "max_tokens must be positive")
      else if r.frequency_penalty.any
          (fun x => !(decide ((-2:ℚ) ≤ x) && decide (x ≤ 2))) then
        (r1, some "frequency_penalty must be between -2 and 2")
      else if r.presence_penalty.any
          (fun x => !(decide ((-2:ℚ) ≤ x) && decide (x ≤ 2))) then
        (r1, some "presence_penalty must be between -2 and 2")
      else if r.n.any (fun v => decide (v ≤ 0)) then
        (r1, some "n must be positive")
      else (r1, none)

/-- The per-key bucket map `_rate_limit_buckets` as an insertion-ordered
association list (Python dict of deques; front of the list is the oldest
timestamp). -/
abbrev Buckets (α : Type) := List (String × List α)

/-- Bucket lookup with the `defaultdict(deque)` default. -/
def bGet {α : Type} : Buckets α → String → List α
  | [], _ => []
  | kv :: tl, k => if kv.1 = k then kv.2 else bGet tl k

/-- Store a bucket under a key, keeping dict insertion order (an existing key
keeps its position; a new key is appended). -/
def bSet {α : Type} : Buckets α → String → List α → Buckets α
  | [], k, b => [(k, b)]
  | kv :: tl, k, b => if kv.1 = k then (k, b) :: tl else kv :: bSet tl k b

/-- The prune loop `while bucket and bucket[0] < window_start:
bucket.popleft()` of `rate_limit_middleware` (`app/main.py`, lines 113-115).
Timestamps are a linear ordered ring (`time.time()` floats). -/
def rlPrune {α : Type} [LinearOrderedRing α] (W now : α) (b : List α) : List α :=
  b.dropWhile (fun t => decide (t < now - W))

/-- One admission decision of `rate_limit_middleware` (`app/main.py`, lines
106-125) for a given key at time `now`: prune the key's bucket, deny when the
remaining count reaches the capacity `C` (recording nothing), otherwise
record `now` and admit.  Returns `(admitted?, new bucket map)`. -/
def rlAdmit {α : Type} [LinearOrderedRing α] (W : α) (C : Nat) (s : Buckets α)
    (key : String) (now : α) : Bool × Buckets α :=
  let b := rlPrune W now (bGet s key)
  if C ≤ b.length then (false, bSet s key b)
  else (true, bSet s key (b ++ [now]))

/-- Iterate `rlAdmit` over a list of request times for one key, reporting the
final bucket map and whether every attempt was admitted. -/
def rlRunKey {α : Type} [LinearOrderedRing α] (W : α) (C : Nat) (s : Buckets α)
    (key : String) : List α → Buckets α × Bool
  | [] => (s, true)
  | t :: ts =>
    let r := rlAdmit W C s key t
    let rest := rlRunKey W C r.2 key ts
    (rest.1, r.1 && rest.2)

/-- The limiter state of `app/middleware/rate_limit.py`: the bucket map
together with `_last_cleanup_ts` (initially `0.0`). -/
structure CleanState (α : Type) where
  lastCleanup : α
  buckets : Buckets α

/-- `_maybe_cleanup` (`app/middleware/rate_limit.py`, lines 12-34): a no-op
within `cleanup_interval` of the previous sweep; otherwise record `now`,
prune every key's bucket against the trailing window and drop the keys whose
bucket became empty. -/
def maybe_cleanup {α : Type} [LinearOrderedRing α] (interval W now : α)
    (s : CleanState α) : CleanState α :=
  if now - s.lastCleanup < interval then s
  else
    { lastCleanup := now,
      buckets := (s.buckets.map (fun kv => (kv.1, rlPrune W now kv.2))).filter
        (fun kv => !kv.2.isEmpty) }

/-- Python `dict.__setitem__` on an insertion-ordered association list: an
existing key keeps its position and gets the new value, a new key is
appended. -/
def pyDictInsert : List (String × String) → String → String → List (String × String)
  | [], k, v => [(k, v)]
  | kv :: tl, k, v => if kv.1 = k then (k, v) :: tl else kv :: pyDictInsert tl k v

/-- `parse_model_provider_map` (`app/providers/registry.py`, lines 10-22):
split the configuration text on commas; skip blank entries and entries
without `'='`; split each entry at the first `'='`, trimming the model key
and trimming/lower-casing the provider name. -/
def parse_model_provider_map (raw : Option String) : List (String × String) :=
  match raw with
  | none => []
  | some s =>
    if s = "" then []
    else
      (pySplitComma s).foldl
        (fun m part =>
          let p := pyStrip part
          if p = "" then m
          else if !(pyContains p "=") then m
          else
            let kv := splitEqL p.toList
            pyDictInsert m (pyStrip (String.mk kv.1))
              (pyLower (pyStrip (String.mk kv.2))))
        []

/-- `resolve_provider_name_for_model` (`app/providers/registry.py`, lines
25-36): exact match first, then the first wildcard entry (a key ending in
`*` whose stem is a prefix of the model), else
`os.getenv("LLM_PROVIDER", "stub").lower()`, with the environment variable
modelled as an `Option String`. -/
def resolve_provider_name_for_model (model : String)
    (mapping : List (String × String)) (llmProviderEnv : Option String) : String :=
  match mapping.find? (fun kv => kv.1 = model) with
  | some kv => kv.2
  | none =>
    match mapping.find?
        (fun kv => pyEnds kv.1 "*" && pyStarts model (pyDropLast kv.1)) with
    | some kv => kv.2
    | none => pyLower (llmProviderEnv.getD "stub")

/-- An inbound HTTP request as the middleware stack sees it: headers (names
lower-cased, per Starlette's case-insensitive header map) and the transport
client host. -/
structure HttpRequest where
  headers : List (String × String)
  clientHost : String

/-- An HTTP response: status, headers (names lower-cased), and an optional
JSON body. -/
structure HttpResponse where
  status : Nat
  headers : List (String × String)
  body : Option Json

/-- Look up a response/request header. -/
def headerGet (hs : List (String × String)) (k : String) : Option String :=
  (hs.find? (fun h => h.1 = k)).map Prod.snd

/-- `response.headers[k] = v`. -/
def setHeader (hs : List (String × String)) (k v : String) :
    List (String × String) :=
  (hs.filter (fun h => !(h.1 = k))) ++ [(k, v)]

/-- Exceptions that can propagate through the middleware stack:
`fastapi.HTTPException` (converted to a response by the framework's
`ExceptionMiddleware`, inside the user middleware), the typed provider
errors, and anything else. -/
inductive GatewayExc where
  | http (status : Nat) (detail : String)
  | provider (e : ProviderExc)
  | other (msg : String)

/-- `unhandled_exception_handler` (`app/main.py`, lines 128-136), installed
for `Exception` and hence run by Starlette's outermost
`ServerErrorMiddleware`: a 500 JSON body carrying the request id, with an
explicit `x-request-id` header. -/
def unhandled_exception_handler (rid : String) : HttpResponse :=
  { status := 500,
    headers := [("x-request-id", rid)],
    body := some (Json.obj
      [("error", Json.str "Internal Server Error"), ("request_id", Json.str rid)]) }

/-- The request id chosen by `add_request_id_header` (`app/main.py`, line
57): `request.headers.get("x-request-id") or str(uuid.uuid4())`, with the
fresh UUID supplied as a parameter. -/
def ridOf (req : HttpRequest) (fresh : String) : String :=
  match headerGet req.headers "x-request-id" with
  | some v => if v = "" then fresh else v
  | none => fresh

/-- The rate-limit key of `rate_limit_middleware` (`app/main.py`, line 110):
`request.headers.get("authorization") or request.client.host or
"anonymous"`. -/
def rateLimitKey (req : HttpRequest) : String :=
  match headerGet req.headers "authorization" with
  | some a => if a = "" then strOr req.clientHost "anonymous" else a
  | none => strOr req.clientHost "anonymous"

/-- Environment-driven gateway configuration read in `app/main.py`. -/
structure GatewayCfg where
  maxRequestBytes : Int
  rlEnabled : Bool
  rlWindow : Int
  rlMax : Nat

/-- Digits of a natural number (fuel-indexed helper). -/
def natToStrAux : Nat → Nat → List Char
  | 0, _ => []
  | fuel + 1, n =>
    if n < 10 then [Char.ofNat (48 + n)]
    else natToStrAux fuel (n / 10) ++ [Char.ofNat (48 + n % 10)]

/-- Python `str(n)` for a natural number. -/
def natToStr (n : Nat) : String :=
  String.mk (natToStrAux (n + 1) n)

/-- Python `str(i)` for an integer. -/
def intToStr (i : Int) : String :=
  if i < 0 then "-" ++ natToStr i.natAbs else natToStr i.natAbs

/-- Starlette's `ExceptionMiddleware` (the innermost layer): an
`HTTPException` becomes a JSON response `{"detail": ...}` with the carried
status; everything else keeps propagating. -/
def exceptionMw (r : Except GatewayExc HttpResponse) :
    Except GatewayExc HttpResponse :=
  match r with
  | Except.error (GatewayExc.http st detail) =>
    Except.ok { status := st, headers := [],
                body := some (Json.obj [("detail", Json.str detail)]) }
  | x => x

/-- The middleware layers inside the rate limiter, composed in the wrapping
order `app/main.py` produces (each `@app.middleware("http")` registration
wraps outside the previous ones): `add_request_id_header` around
`enforce_max_body_size` around the framework `ExceptionMiddleware` around
the routed handler `inner` (which receives the request id placed in
`request.state`).  An exception escaping them is answered by the outermost
`ServerErrorMiddleware` via `unhandled_exception_handler`. -/
def handleInner (cfg : GatewayCfg) (fresh : String) (req : HttpRequest)
    (inner : String → Except GatewayExc HttpResponse) : HttpResponse :=
  let rid := ridOf req fresh
  let afterMaxBody : Except GatewayExc HttpResponse :=
    if cfg.maxRequestBytes > 0 then
      match headerGet req.headers "content-length" with
      | some cl =>
        match pyInt? cl with
        | some v =>
          if v > cfg.maxRequestBytes then
            Except.ok { status := 413, headers := [], body := none }
          else exceptionMw (inner rid)
        | none => exceptionMw (inner rid)
      | none => exceptionMw (inner rid)
    else exceptionMw (inner rid)
  match afterMaxBody with
  | Except.ok resp => { resp with headers := setHeader resp.headers "x-request-id" rid }
  | Except.error _ => unhandled_exception_handler rid

/-- The full middleware pipeline of `app/main.py` for one request.
`rate_limit_middleware` is registered last and therefore wraps outside
`add_request_id_header`: a denial returns a bare 429 with only a
`Retry-After` header, short-circuiting every inner layer.  (The CORS layer,
an external collaborator that only adds CORS headers, is omitted.) -/
def gatewayApp {α : Type} [LinearOrderedRing α] (cfg : GatewayCfg)
    (buckets : Buckets α) (now : α) (fresh : String) (req : HttpRequest)
    (inner : String → Except GatewayExc HttpResponse) :
    HttpResponse × Buckets α :=
  if cfg.rlEnabled then
    let r := rlAdmit (cfg.rlWindow : α) cfg.rlMax buckets (rateLimitKey req) now
    if r.1 then (handleInner cfg fresh req inner, r.2)
    else
      ({ status := 429, headers := [("retry-after", intToStr cfg.rlWindow)],
         body := none }, r.2)
  else (handleInner cfg fresh req inner, buckets)

/-- The `proxy` route body (`app/routers/proxy.py`, lines 77-112) after
dependency resolution: validate (raising `HTTPException(400)` on failure),
then call the chosen provider's `chat` on the mutated request; a provider
exception is re-raised unchanged (the `try/except/finally` block only
records metrics). -/
def proxyChatRoute (r : ChatRequest)
    (chatCall : ChatRequest → Except ProviderExc Json) :
    Except GatewayExc HttpResponse :=
  let v := validate_request r
  match v.2 with
  | some d => Except.error (GatewayExc.http 400 d)
  | none =>
    match chatCall v.1 with
    | Except.ok j => Except.ok { status := 200, headers := [], body := some j }
    | Except.error e => Except.error (GatewayExc.provider e)

/-- What a provider streaming call produced before the router consumed it:
either a finite list of fragments followed by normal exhaustion, or some
fragments followed by a raised exception with the given message. -/
inductive StreamOutcome where
  | ok (chunks : List String)
  | failAfter (chunks : List String) (excMsg : String)

/-- One character of `json.dumps`'s (default, `ensure_ascii`) string
escaping. -/
def jsonEscChar (c : Char) : List Char :=
  if c = '"' then ['\\', '"']
  else if c = '\\' then ['\\', '\\']
  else if c = '\n' then ['\\', 'n']
  else if c = '\r' then ['\\', 'r']
  else if c = '\t' then ['\\', 't']
  else if c = Char.ofNat 8 then ['\\', 'b']
  else if c = Char.ofNat 12 then ['\\', 'f']
  else if c.toNat < 32 ∨ c.toNat > 126 then
    ['\\', 'u', hexDigitChar (c.toNat / 4096 % 16), hexDigitChar (c.toNat / 256 % 16),
     hexDigitChar (c.toNat / 16 % 16), hexDigitChar (c.toNat % 16)]
  else [c]
where
  hexDigitChar (n : Nat) : Char :=
    if n < 10 then Char.ofNat (48 + n) else Char.ofNat (87 + n)

/-- `json.dumps` of a string value. -/
def jsonDumpStr (s : String) : String :=
  "\"" ++ String.mk (s.toList.foldr (fun c acc => jsonEscChar c ++ acc) []) ++ "\""

/-- `json.dumps({"error": "stream_error", "message": str(exc),
"request_id": rid})` with the default separators, exactly as
`proxy_stream.event_gen` builds its in-band error payload. -/
def dumpsStreamErr (msg rid : String) : String :=
  "\x7b\"error\": \"stream_error\", \"message\": " ++ jsonDumpStr msg ++
    ", \"request_id\": " ++ jsonDumpStr rid ++ "\x7d"

/-- `event_gen` (`app/routers/proxy.py`, lines 137-159): every fragment is
framed as a `data:` event; on normal exhaustion the terminal `data: [DONE]`
marker follows; on a provider exception one in-band error event is emitted
and then the terminal marker. -/
def event_gen (rid : String) : StreamOutcome → List String
  | StreamOutcome.ok cs =>
    cs.map (fun c => "data: " ++ c ++ "\n\n") ++ ["data: [DONE]\n\n"]
  | StreamOutcome.failAfter cs msg =>
    cs.map (fun c => "data: " ++ c ++ "\n\n") ++
      ["data: " ++ dumpsStreamErr msg rid ++ "\n\n", "data: [DONE]\n\n"]

/-- A streaming response as built by `proxy_stream` (`app/routers/proxy.py`,
line 169): `StreamingResponse(event_gen(), media_type="text/event-stream")`
carries FastAPI's default status 200. -/
structure SSEResponse where
  status : Nat
  mediaType : String
  events : List String

/-- The `proxy_stream` response for a given provider stream outcome. -/
def proxy_stream_response (rid : String) (outcome : StreamOutcome) : SSEResponse :=
  { status := 200, mediaType := "text/event-stream", events := event_gen rid outcome }

/-- The gateway's response when a valid `POST /proxy` request reaches a
provider whose `chat` raises the given typed error (rate limiting disabled,
no inbound `x-request-id`, fresh id `"rid-fresh"`): the scenario of
`tests/test_proxy_errors.py::test_provider_error_mappings`. -/
def c1Response (e : ProviderExc) : HttpResponse :=
  (gatewayApp (α := ℤ)
    { maxRequestBytes := 0, rlEnabled := false, rlWindow := 60, rlMax := 60 }
    [] 0 "rid-fresh"
    { headers := [("authorization", "x")], clientHost := "testclient" }
    (fun _ => proxyChatRoute
      { model := "m", messages := [{ role := "user", content := "hi" }] }
      (fun _ => Except.error e))).1

/-- C1: the claim (and `tests/test_proxy_errors.py`) says typed provider
errors map 1:1 to 404/401/403/429, but no handler for `ProviderError` exists
in the application: the `proxy` route re-raises them and the catch-all
`unhandled_exception_handler` answers 500 with the internal-error body for
every one of them. -/
theorem C1_typed_provider_errors_all_become_500 :
    (c1Response (ProviderExc.unauthorized "no auth")).status = 500 ∧
    (c1Response (ProviderExc.forbidden "no access")).status = 500 ∧
    (c1Response (ProviderExc.rateLimited "slow down" (some 7))).status = 500 ∧
    (c1Response (ProviderExc.modelNotFound "model not found: x")).status = 500 ∧
    (c1Response (ProviderExc.unauthorized "no auth")).body
      = some (Json.obj [("error", Json.str "Internal Server Error"),
                        ("request_id", Json.str "rid-fresh")]) ∧
    headerGet (c1Response (ProviderExc.rateLimited "slow down" (some 7))).headers
      "retry-after" = none := by
  exact ⟨rfl, rfl, rfl, rfl, rfl, rfl⟩

/-- C4 counterexample: for model `"a b"` and 404 body message
`"a b is not found"` the claim's condition holds (the lower-cased message
mentions `"not found"` and contains the requested model name), yet the
adapter does not raise `ModelNotFound`: the code searches for the model name
with its spaces removed (`request.model.replace(" ", "")`), misses, and
falls through to the opaque `raise_for_status` failure. -/
theorem C4_counterexample_model_with_space :
    classifyBackendStatus 404 "a b is not found" none "a b"
        = some (ProviderExc.httpStatus 404) ∧
    pyContains (pyLower "a b is not found") "not found" = true ∧
    pyContains (pyLower "a b is not found") "a b" = true := by
  exact ⟨rfl, rfl, rfl⟩

/-- C6 counterexample: with no mapping entries and the default provider
configured as `"A"`, resolution returns `"a"`, not the configured name `"A"`:
the code lower-cases `os.getenv("LLM_PROVIDER", "stub")`. -/
theorem C6_counterexample_default_lowercased :
    resolve_provider_name_for_model "m" [] (some "A") ≠ "A" ∧
    resolve_provider_name_for_model "m" [] (some "A") = "a" := by
  exact ⟨by decide, rfl⟩

/-- C8 counterexample: a rate-limit denial (capacity 0, limiter enabled)
returns 429 with no `x-request-id` header even though the inbound request
carried `x-request-id: abc` — `rate_limit_middleware` is registered last,
wraps outside `add_request_id_header`, and its denial response short-circuits
the header-setting layer. -/
theorem C8_counterexample_429_without_request_id :
    ((gatewayApp (α := ℤ)
        { maxRequestBytes := 0, rlEnabled := true, rlWindow := 60, rlMax := 0 }
        [] 0 "fresh"
        { headers := [("x-request-id", "abc"), ("authorization", "k")],
          clientHost := "host" }
        (fun _ => Except.ok { status := 200, headers := [], body := none })).1.status
      = 429) ∧
    headerGet ((gatewayApp (α := ℤ)
        { maxRequestBytes := 0, rlEnabled := true, rlWindow := 60, rlMax := 0 }
        [] 0 "fresh"
        { headers := [("x-request-id", "abc"), ("authorization", "k")],
          clientHost := "host" }
        (fun _ => Except.ok { status := 200, headers := [], body := none })).1.headers)
      "x-request-id" = none := by
  exact ⟨rfl, rfl⟩

/-- `find?` over an append hits the marked element when the prefix has no
match. -/
lemma find?_append_first {β : Type} (p : β → Bool) (pre post : List β) (x : β)
    (hpre : ∀ e ∈ pre, p e = false) (hx : p x = true) :
    (pre ++ x :: post).find? p = some x := by
  induction pre with
  | nil => simp [List.find?, hx]
  | cons hd tl ih =>
    have hhd := hpre hd (by simp)
    simp only [List.cons_append, List.find?, hhd]
    exact ih (fun e he => hpre e (by simp [he]))

/-- C6 (amended: the configured default provider name is lower-cased before
being returned): resolution returns the exact-match value when one exists;
else the value of the first configured wildcard entry whose stem is a prefix
of the model, in configuration order; else the lower-cased configured
default; else the built-in `"stub"`.  The mapping `"gpt-4=a,gpt-*=b"`
resolves `"gpt-4"` to `a` and `"gpt-4-turbo"` to `b`. -/
theorem C6_resolution_order :
    (∀ (model : String) (mapping : List (String × String)) (dflt : Option String) e,
        mapping.find? (fun kv => kv.1 = model) = some e →
        resolve_provider_name_for_model model mapping dflt = e.2) ∧
    (∀ (model k v : String) (pre post : List (String × String)) (dflt : Option String),
        (pre ++ (k, v) :: post).find? (fun kv => kv.1 = model) = none →
        (∀ e ∈ pre, (pyEnds e.1 "*" && pyStarts model (pyDropLast e.1)) = false) →
        (pyEnds k "*" && pyStarts model (pyDropLast k)) = true →
        resolve_provider_name_for_model model (pre ++ (k, v) :: post) dflt = v) ∧
    (∀ (model d : String) (mapping : List (String × String)),
        mapping.find? (fun kv => kv.1 = model) = none →
        mapping.find? (fun kv => pyEnds kv.1 "*" && pyStarts model (pyDropLast kv.1))
          = none →
        resolve_provider_name_for_model model mapping (some d) = pyLower d) ∧
    (∀ (model : String) (mapping : List (String × String)),
        mapping.find? (fun kv => kv.1 = model) = none →
        mapping.find? (fun kv => pyEnds kv.1 "*" && pyStarts model (pyDropLast kv.1))
          = none →
        resolve_provider_name_for_model model mapping none = "stub") ∧
    (parse_model_provider_map (some "gpt-4=a,gpt-*=b")
        = [("gpt-4", "a"), ("gpt-*", "b")] ∧
      resolve_provider_name_for_model "gpt-4"
        (parse_model_provider_map (some "gpt-4=a,gpt-*=b")) none = "a" ∧
      resolve_provider_name_for_model "gpt-4-turbo"
        (parse_model_provider_map (some "gpt-4=a,gpt-*=b")) none = "b") := by
  refine ⟨?_, ?_, ?_, ?_, rfl, rfl, rfl⟩
  · intro model mapping dflt e h
    simp [resolve_provider_name_for_model, h]
  · intro model k v pre post dflt hexact hpre hkv
    have hfind := find?_append_first
      (fun kv : String × String => pyEnds kv.1 "*" && pyStarts model (pyDropLast kv.1))
      pre post (k, v) hpre hkv
    simp [resolve_provider_name_for_model, hexact, hfind]
  · intro model d mapping h1 h2
    simp [resolve_provider_name_for_model, h1, h2, Option.getD]
  · intro model mapping h1 h2
    simp [resolve_provider_name_for_model, h1, h2, Option.getD]
    rfl

/-- C6 witness: the wildcard branch of `C6_resolution_order` applied at a
concrete mapping, plus the default branch. -/
theorem C6_resolution_order_witness :
    resolve_provider_name_for_model "gpt-9" [("abc*", "c"), ("gpt-*", "b")] none = "b" ∧
    resolve_provider_name_for_model "zzz" [("gpt-4", "a")] (some "Ollama") = "ollama" := by
  constructor
  · exact C6_resolution_order.2.1 "gpt-9" "gpt-*" "b" [("abc*", "c")] [] none
      (by decide) (by decide) (by decide)
  · exact C6_resolution_order.2.2.1 "zzz" "Ollama" [("gpt-4", "a")]
      (by decide) (by decide)

/-- C4 (amended: the model name is matched with its spaces removed,
verbatim, against the lower-cased message): a 404 is classified as
`ModelNotFound` exactly when the lower-cased body message mentions one of
`"model"`, `"not found"`, `"unknown model"` and contains
`request.model.replace(" ", "")`; every other 404 becomes the opaque
`raise_for_status` failure, never `ModelNotFound`.  The spec's own example —
message `"model not found: nonexistent-model-xyz"` for model
`"nonexistent-model-xyz"` — classifies as `ModelNotFound`, while a 404 body
unrelated to models propagates opaquely. -/
theorem C4_404_classification :
    (∀ (model message : String) (ra : Option String),
        (∃ m, classifyBackendStatus 404 message ra model
            = some (ProviderExc.modelNotFound m))
          ↔ ((pyContains (pyLower message) "model"
              || pyContains (pyLower message) "not found"
              || pyContains (pyLower message) "unknown model")
             && pyContains (pyLower message) (pyRemoveSpaces model)) = true) ∧
    (∀ (model message : String) (ra : Option String),
        ((pyContains (pyLower message) "model"
          || pyContains (pyLower message) "not found"
          || pyContains (pyLower message) "unknown model")
         && pyContains (pyLower message) (pyRemoveSpaces model)) = false →
        classifyBackendStatus 404 message ra model
          = some (ProviderExc.httpStatus 404)) ∧
    classifyBackendStatus 404 "model not found: nonexistent-model-xyz" none
        "nonexistent-model-xyz"
      = some (ProviderExc.modelNotFound "model not found: nonexistent-model-xyz") ∧
    classifyBackendStatus 404 "no such route" none "nonexistent-model-xyz"
      = some (ProviderExc.httpStatus 404) := by
  refine ⟨?_, ?_, rfl, rfl⟩
  · intro model message ra
    constructor
    · intro ⟨m, hm⟩
      by_contra hcond
      rw [Bool.not_eq_true] at hcond
      simp [classifyBackendStatus, hcond] at hm
    · intro hcond
      refine ⟨strOr message ("Model not found: " ++ model), ?_⟩
      simp [classifyBackendStatus, hcond]
  · intro model message ra hcond
    simp [classifyBackendStatus, hcond]

/-- C4 witness: the opaque-404 branch of `C4_404_classification` at the
space-free mismatch `"backend route missing"`. -/
theorem C4_404_classification_witness :
    classifyBackendStatus 404 "backend route missing" none "gpt-4"
      = some (ProviderExc.httpStatus 404) := by
  exact C4_404_classification.2.1 "gpt-4" "backend route missing" none (by decide)

/-- A message passes its per-message checks exactly when its normalized role
is allowed and its trimmed content is non-empty. -/
lemma msgCheckError_eq_none (m : Message) :
    msgCheckError m = none ↔
      (allowedRole (normRole m.role) = true ∧ pyStrip m.content ≠ "") := by
  unfold msgCheckError
  split_ifs with h1 h2 <;> simp_all

/-- When every message passes its checks, the validation loop normalizes the
whole list and reports no error. -/
lemma normalizeMessages_ok (ms : List Message)
    (h : ∀ m ∈ ms, msgCheckError m = none) :
    normalizeMessages ms = (ms.map normMsg, none) := by
  induction ms with
  | nil => rfl
  | cons m tl ih =>
    have hm := h m (by simp)
    simp [normalizeMessages, hm, ih (fun x hx => h x (by simp [hx]))]

/-- When the loop first fails at `m`, the messages before `m` are already
normalized and `m` with everything after it is untouched. -/
lemma normalizeMessages_stops (pre : List Message) (m : Message)
    (post : List Message) (hpre : ∀ x ∈ pre, msgCheckError x = none)
    (hm : msgCheckError m ≠ none) :
    normalizeMessages (pre ++ m :: post)
      = (pre.map normMsg ++ m :: post, msgCheckError m) := by
  induction pre with
  | nil =>
    cases hme : msgCheckError m with
    | none => exact absurd hme hm
    | some e => simp [normalizeMessages, hme]
  | cons hd tl ih =>
    have hhd := hpre hd (by simp)
    simp [normalizeMessages, hhd, ih (fun x hx => hpre x (by simp [hx]))]

/-- `getLastD` through the normalization map, for a nonempty list. -/
lemma getLastD_map_normMsg :
    ∀ (ms : List Message), ms ≠ [] → ∀ (d d' : Message),
      (ms.map normMsg).getLastD d = normMsg (ms.getLastD d')
  | [], h, _, _ => absurd rfl h
  | [m], _, _, _ => rfl
  | m :: m2 :: tl, _, d, d' => by
    have := getLastD_map_normMsg (m2 :: tl) (by simp) (normMsg m) m
    simpa [List.getLastD_cons] using this

/-- C2: a request with a non-empty trimmed model, a non-empty message list
whose messages all have an allowed normalized role and non-empty trimmed
content, whose last normalized role is not `assistant`, and whose supplied
sampling parameters are all in range, validates successfully, and every
message in the request has been rewritten in place to its normalized form
(role trimmed and lower-cased, content trimmed). -/
theorem C2_valid_request_is_normalized (r : ChatRequest)
    (hm : pyStrip r.model ≠ "")
    (hne : r.messages ≠ [])
    (hok : ∀ m ∈ r.messages,
      allowedRole (normRole m.role) = true ∧ pyStrip m.content ≠ "")
    (hlast : normRole ((r.messages.getLastD { role := "", content := "" }).role)
      ≠ "assistant")
    (ht : r.temperature.all (fun x => decide ((0:ℚ) ≤ x) && decide (x ≤ 2)) = true)
    (htp : r.top_p.all (fun x => decide ((0:ℚ) ≤ x) && decide (x ≤ 1)) = true)
    (hmt : r.max_tokens.all (fun v => decide (0 < v)) = true)
    (hfp : r.frequency_penalty.all
      (fun x => decide ((-2:ℚ) ≤ x) && decide (x ≤ 2)) = true)
    (hpp : r.presence_penalty.all
      (fun x => decide ((-2:ℚ) ≤ x) && decide (x ≤ 2)) = true)
    (hn : r.n.all (fun v => decide (0 < v)) = true) :
    validate_request r = ({ r with messages := r.messages.map normMsg }, none) := by
  have hnorm := normalizeMessages_ok r.messages
    (fun m hm' => (msgCheckError_eq_none m).mpr (hok m hm'))
  have hempty : r.messages.isEmpty = false := by
    cases h : r.messages with
    | nil => exact absurd h hne
    | cons a tl => rfl
  have hlast2 :
      ((r.messages.map normMsg).getLastD { role := "", content := "" }).role
        ≠ "assistant" := by
    rw [getLastD_map_normMsg r.messages hne _ { role := "", content := "" }]
    exact hlast
  have ht2 : r.temperature.any
      (fun x => !(decide ((0:ℚ) ≤ x) && decide (x ≤ 2))) = false := by
    cases h : r.temperature <;> simp_all [Option.all, Option.any]
  have htp2 : r.top_p.any
      (fun x => !(decide ((0:ℚ) ≤ x) && decide (x ≤ 1))) = false := by
    cases h : r.top_p <;> simp_all [Option.all, Option.any]
  have hmt2 : r.max_tokens.any (fun v => decide (v ≤ 0)) = false := by
    cases h : r.max_tokens <;> simp_all [Option.all, Option.any]
  have hfp2 : r.frequency_penalty.any
      (fun x => !(decide ((-2:ℚ) ≤ x) && decide (x ≤ 2))) = false := by
    cases h : r.frequency_penalty <;> simp_all [Option.all, Option.any]
  have hpp2 : r.presence_penalty.any
      (fun x => !(decide ((-2:ℚ) ≤ x) && decide (x ≤ 2))) = false := by
    cases h : r.presence_penalty <;> simp_all [Option.all, Option.any]
  have hn2 : r.n.any (fun v => decide (v ≤ 0)) = false := by
    cases h : r.n <;> simp_all [Option.all, Option.any]
  unfold validate_request
  rw [if_neg hm, if_neg (by simp [hempty])]
  simp only [hnorm, hlast2, ht2, htp2, hmt2, hfp2, hpp2, hn2]
  simp [hlast2]

/-- C2 witness: a concrete request with padded/upper-case fields and
in-range parameters validates successfully and comes out normalized. -/
theorem C2_valid_request_is_normalized_witness :
    validate_request
      { model := " m ",
        messages := [{ role := " USER ", content := " Hi " }],
        temperature := some 1, top_p := some 1, max_tokens := some 5,
        frequency_penalty := some 0, presence_penalty := some 0,
        n := some 1 }
      = ({ model := " m ",
           messages := [{ role := "user", content := "Hi" }],
           temperature := some 1, top_p := some 1, max_tokens := some 5,
           frequency_penalty := some 0, presence_penalty := some 0,
           n := some 1 }, none) := by
  exact C2_valid_request_is_normalized
    { model := " m ",
      messages := [{ role := " USER ", content := " Hi " }],
      temperature := some 1, top_p := some 1, max_tokens := some 5,
      frequency_penalty := some 0, presence_penalty := some 0,
      n := some 1 }
    (by decide) (by decide) (by decide) (by decide) (by decide) (by decide)
    (by decide) (by decide) (by decide) (by decide)

/-- C10: validation failure is not atomic.  First part: if the message loop
fails at some message `m` (invalid normalized role or empty trimmed
content), `validate_request` reports that message's error while every
message before `m` in the request has already been rewritten to its
normalized form and nothing is rolled back.  Second part: when the loop
succeeds but the trailing-assistant rule fires, all messages have already
been normalized in place. -/
theorem C10_validation_mutates_prefix_without_rollback :
    (∀ (r : ChatRequest) (pre : List Message) (m : Message) (post : List Message),
        r.messages = pre ++ m :: post →
        pyStrip r.model ≠ "" →
        (∀ x ∈ pre, msgCheckError x = none) →
        msgCheckError m ≠ none →
        validate_request r
          = ({ r with messages := pre.map normMsg ++ m :: post }, msgCheckError m)) ∧
    (∀ r : ChatRequest,
        pyStrip r.model ≠ "" →
        r.messages ≠ [] →
        (∀ x ∈ r.messages, msgCheckError x = none) →
        normRole ((r.messages.getLastD { role := "", content := "" }).role)
          = "assistant" →
        validate_request r
          = ({ r with messages := r.messages.map normMsg },
             some "Last message must not be from role \"assistant\"")) := by
  constructor
  · intro r pre m post hmsgs hmodel hpre hm
    have hstop := normalizeMessages_stops pre m post hpre hm
    have hempty : r.messages.isEmpty = false := by
      rw [hmsgs]
      cases pre <;> rfl
    unfold validate_request
    rw [if_neg hmodel, if_neg (by simp [hempty])]
    rw [hmsgs, hstop]
    cases hme : msgCheckError m with
    | none => exact absurd hme hm
    | some e => simp
  · intro r hmodel hne hok hlast
    have hnorm := normalizeMessages_ok r.messages hok
    have hempty : r.messages.isEmpty = false := by
      cases h : r.messages with
      | nil => exact absurd h hne
      | cons a tl => rfl
    have hlast2 :
        ((r.messages.map normMsg).getLastD { role := "", content := "" }).role
          = "assistant" := by
      rw [getLastD_map_normMsg r.messages hne _ { role := "", content := "" }]
      exact hlast
    unfold validate_request
    rw [if_neg hmodel, if_neg (by simp [hempty])]
    simp only [hnorm, hlast2]
    simp

/-- C10 witness: a request failing at the second message (invalid role) has
its first message already normalized and nothing restored; a request ending
in a normalized-`assistant` turn is fully normalized when the trailing rule
fires. -/
theorem C10_validation_mutates_prefix_witness :
    validate_request
      { model := "m",
        messages := [{ role := " USER ", content := " hi " },
                     { role := "robot", content := "x" },
                     { role := "user", content := " y " }] }
      = ({ model := "m",
           messages := [{ role := "user", content := "hi" },
                        { role := "robot", content := "x" },
                        { role := "user", content := " y " }] },
         some "Invalid role: robot") ∧
    validate_request
      { model := "m",
        messages := [{ role := "user", content := "hi" },
                     { role := " Assistant ", content := " ok " }] }
      = ({ model := "m",
           messages := [{ role := "user", content := "hi" },
                        { role := "assistant", content := "ok" }] },
         some "Last message must not be from role \"assistant\"") := by
  constructor
  · exact C10_validation_mutates_prefix_without_rollback.1
      { model := "m",
        messages := [{ role := " USER ", content := " hi " },
                     { role := "robot", content := "x" },
                     { role := "user", content := " y " }] }
      [{ role := " USER ", content := " hi " }]
      { role := "robot", content := "x" }
      [{ role := "user", content := " y " }]
      rfl (by decide) (by decide) (by decide)
  · exact C10_validation_mutates_prefix_without_rollback.2
      { model := "m",
        messages := [{ role := "user", content := "hi" },
                     { role := " Assistant ", content := " ok " }] }
      (by decide) (by decide) (by decide) (by decide)

/-- Setting a response header makes it readable. -/
lemma headerGet_setHeader (hs : List (String × String)) (k v : String) :
    headerGet (setHeader hs k v) k = some v := by
  unfold headerGet setHeader
  rw [find?_append_first (fun h => h.1 = k) _ [] (k, v)
    (fun e he => by simp only [List.mem_filter] at he; simpa using he.2)
    (by simp)]
  rfl

/-- Every response produced inside the rate limiter carries
`x-request-id = ridOf req fresh`: the success path sets it in
`add_request_id_header`, and the 500 path sets it in
`unhandled_exception_handler`. -/
lemma handleInner_request_id (cfg : GatewayCfg) (fresh : String)
    (req : HttpRequest) (inner : String → Except GatewayExc HttpResponse) :
    headerGet (handleInner cfg fresh req inner).headers "x-request-id"
      = some (ridOf req fresh) := by
  simp only [handleInner]
  split
  · exact headerGet_setHeader _ _ _
  · simp [unhandled_exception_handler, headerGet]

/-- C8 (amended: except for rate-limit denials): every admitted (or
unlimited) request's response carries an `x-request-id` header equal to the
inbound header's value when present and non-empty, and to the freshly
generated id otherwise — on success, validation failure, 413, and 500 paths
alike. -/
theorem C8_request_id_on_admitted_responses {α : Type} [LinearOrderedRing α]
    (cfg : GatewayCfg) (buckets : Buckets α) (now : α) (fresh : String)
    (req : HttpRequest) (inner : String → Except GatewayExc HttpResponse)
    (hadm : cfg.rlEnabled = false ∨
      (rlAdmit (cfg.rlWindow : α) cfg.rlMax buckets (rateLimitKey req) now).1
        = true) :
    headerGet (gatewayApp cfg buckets now fresh req inner).1.headers "x-request-id"
      = some (ridOf req fresh) ∧
    (∀ v, headerGet req.headers "x-request-id" = some v → v ≠ "" →
      ridOf req fresh = v) ∧
    (headerGet req.headers "x-request-id" = none → ridOf req fresh = fresh) := by
  refine ⟨?_, ?_, ?_⟩
  · rcases hadm with h | h
    · simp [gatewayApp, h, handleInner_request_id]
    · by_cases he : cfg.rlEnabled = true
      · simp [gatewayApp, he, h, handleInner_request_id]
      · simp [gatewayApp, he, handleInner_request_id]
  · intro v hv hne
    simp [ridOf, hv, hne]
  · intro hnone
    simp [ridOf, hnone]

/-- C8 witness: with the limiter disabled, an inbound `x-request-id: abc` is
echoed on the response. -/
theorem C8_request_id_on_admitted_responses_witness :
    headerGet ((gatewayApp (α := ℤ)
        { maxRequestBytes := 0, rlEnabled := false, rlWindow := 60, rlMax := 60 }
        [] 0 "fresh"
        { headers := [("x-request-id", "abc")], clientHost := "h" }
        (fun _ => Except.ok { status := 200, headers := [], body := none })).1.headers)
      "x-request-id" = some "abc" := by
  exact (C8_request_id_on_admitted_responses (α := ℤ)
    { maxRequestBytes := 0, rlEnabled := false, rlWindow := 60, rlMax := 60 }
    [] 0 "fresh"
    { headers := [("x-request-id", "abc")], clientHost := "h" }
    (fun _ => Except.ok { status := 200, headers := [], body := none })
    (Or.inl rfl)).1

/-- Writing a bucket makes it readable. -/
lemma bGet_bSet_self {α : Type} (s : Buckets α) (k : String) (b : List α) :
    bGet (bSet s k b) k = b := by
  induction s with
  | nil => simp [bSet, bGet]
  | cons kv tl ih =>
    by_cases h : kv.1 = k
    · simp [bSet, bGet, h]
    · simp [bSet, bGet, h, ih]

/-- Writing one key's bucket leaves every other key's bucket unchanged. -/
lemma bGet_bSet_other {α : Type} (s : Buckets α) (k k' : String) (b : List α)
    (h : k' ≠ k) : bGet (bSet s k b) k' = bGet s k' := by
  induction s with
  | nil =>
    simp only [bSet, bGet]
    rw [if_neg (fun hh => h hh.symm)]
  | cons kv tl ih =>
    by_cases hk : kv.1 = k
    · simp only [bSet, hk, if_pos]
      simp only [bGet]
      rw [if_neg (fun hh => h hh.symm), if_neg (by rw [hk]; exact fun hh => h hh.symm)]
    · simp only [bSet, hk, if_neg, ite_false]
      simp only [bGet, ih]

/-- `dropWhile` keeps a list whose head (hence, here, all elements) fails the
predicate. -/
lemma dropWhile_eq_self_of_false {β : Type} (p : β → Bool) :
    ∀ (l : List β), (∀ x ∈ l, p x = false) → l.dropWhile p = l
  | [], _ => rfl
  | x :: xs, h => by
    have hx := h x (by simp)
    simp [List.dropWhile, hx]

/-- `dropWhile` empties a list every element of which satisfies the
predicate. -/
lemma dropWhile_eq_nil_of_true {β : Type} (p : β → Bool) :
    ∀ (l : List β), (∀ x ∈ l, p x = true) → l.dropWhile p = []
  | [], _ => rfl
  | x :: xs, h => by
    have hx := h x (by simp)
    simp only [List.dropWhile, hx]
    exact dropWhile_eq_nil_of_true p xs (fun y hy => h y (by simp [hy]))

/-- An admission attempt below capacity, none of whose recorded timestamps
has expired, is admitted and appends `now`. -/
lemma rlAdmit_admits {α : Type} [LinearOrderedRing α] (W : α) (C : Nat)
    (s : Buckets α) (k : String) (now : α)
    (hkeep : ∀ t ∈ bGet s k, ¬ (t < now - W))
    (hcap : (bGet s k).length < C) :
    rlAdmit W C s k now = (true, bSet s k (bGet s k ++ [now])) := by
  unfold rlAdmit rlPrune
  rw [dropWhile_eq_self_of_false _ _
    (fun t ht => by simpa using hkeep t ht)]
  rw [if_neg (by omega)]

/-- An admission attempt at (or beyond) capacity, none of whose recorded
timestamps has expired, is denied and records nothing. -/
lemma rlAdmit_denies {α : Type} [LinearOrderedRing α] (W : α) (C : Nat)
    (s : Buckets α) (k : String) (now : α)
    (hkeep : ∀ t ∈ bGet s k, ¬ (t < now - W))
    (hcap : C ≤ (bGet s k).length) :
    rlAdmit W C s k now = (false, bSet s k (bGet s k)) := by
  unfold rlAdmit rlPrune
  rw [dropWhile_eq_self_of_false _ _
    (fun t ht => by simpa using hkeep t ht)]
  rw [if_pos hcap]

/-- The admission step never touches another key's bucket. -/
lemma rlAdmit_other {α : Type} [LinearOrderedRing α] (W : α) (C : Nat)
    (s : Buckets α) (k k' : String) (now : α) (h : k' ≠ k) :
    bGet (rlAdmit W C s k now).2 k' = bGet s k' := by
  simp only [rlAdmit]
  split
  · exact bGet_bSet_other s k k' _ h
  · exact bGet_bSet_other s k k' _ h

/-- A run of under-capacity admissions for one key appends all the request
times to that key's bucket, admits every attempt, and leaves every other
key's bucket unchanged. -/
lemma rlRunKey_fill {α : Type} [LinearOrderedRing α] (W : α) (C : Nat)
    (k : String) :
    ∀ (ts : List α) (s : Buckets α),
      (bGet s k).length + ts.length ≤ C →
      (∀ t ∈ ts, ∀ x ∈ bGet s k ++ ts, ¬ (x < t - W)) →
      (rlRunKey W C s k ts).2 = true ∧
      bGet (rlRunKey W C s k ts).1 k = bGet s k ++ ts ∧
      (∀ k', k' ≠ k → bGet (rlRunKey W C s k ts).1 k' = bGet s k')
  | [], s, _, _ => ⟨rfl, by simp [rlRunKey], fun k' _ => by simp [rlRunKey]⟩
  | t :: ts, s, hc, hw => by
    have hstep := rlAdmit_admits W C s k t
      (fun x hx => hw t (by simp) x (by simp [hx]))
      (by simp at hc; omega)
    have hget : bGet (bSet s k (bGet s k ++ [t])) k = bGet s k ++ [t] :=
      bGet_bSet_self s k _
    have ih := rlRunKey_fill W C k ts (bSet s k (bGet s k ++ [t]))
      (by rw [hget]; simp at hc ⊢; omega)
      (by
        intro t' ht' x hx
        rw [hget] at hx
        refine hw t' (by simp [ht']) x ?_
        simp only [List.append_assoc, List.cons_append, List.nil_append] at hx ⊢
        simpa using hx)
    refine ⟨?_, ?_, ?_⟩
    · simp only [rlRunKey, hstep, ih.1]
      rfl
    · simp only [rlRunKey, hstep]
      rw [ih.2.1, hget]
      simp
    · intro k' hk'
      simp only [rlRunKey, hstep]
      rw [ih.2.2 k' hk', bGet_bSet_other s k k' _ hk']

/-- The admission decision for a key depends only on that key's bucket. -/
lemma rlAdmit_decision_congr {α : Type} [LinearOrderedRing α] (W : α) (C : Nat)
    (s s2 : Buckets α) (k' : String) (n' : α)
    (h : bGet s2 k' = bGet s k') :
    (rlAdmit W C s2 k' n').1 = (rlAdmit W C s k' n').1 := by
  simp only [rlAdmit, h]
  split <;> rfl

/-- C3: for the limiter with window `W = cfg.rlWindow` and capacity
`C = cfg.rlMax`: (1) starting from an empty bucket for key `k`, `C` requests
at nondecreasing times are all admitted, and a further attempt at time `n`
within `W` of the first is denied — the gateway answers 429 with
`Retry-After = str(W)`, and the denied attempt leaves the bucket exactly the
`C` recorded timestamps (nothing recorded); (2) once every recorded
timestamp of a key is older than `n - W`, an attempt at `n` is admitted
again and the bucket becomes `[n]`; (3) an admission step for one key never
changes another key's bucket, and therefore never changes another key's
admission decision. -/
theorem C3_sliding_window_rate_limiter {α : Type} [LinearOrderedRing α]
    (cfg : GatewayCfg) :
    (∀ (s₀ : Buckets α) (k : String) (t₀ : α) (rest : List α) (n : α)
        (req : HttpRequest) (fresh : String)
        (inner : String → Except GatewayExc HttpResponse),
        cfg.rlEnabled = true →
        rateLimitKey req = k →
        bGet s₀ k = [] →
        1 + rest.length = cfg.rlMax →
        (t₀ :: rest).Pairwise (· ≤ ·) →
        (∀ t ∈ t₀ :: rest, t ≤ n) →
        n - (cfg.rlWindow : α) ≤ t₀ →
        (rlRunKey (cfg.rlWindow : α) cfg.rlMax s₀ k (t₀ :: rest)).2 = true ∧
        (gatewayApp cfg (rlRunKey (cfg.rlWindow : α) cfg.rlMax s₀ k (t₀ :: rest)).1
            n fresh req inner).1.status = 429 ∧
        headerGet (gatewayApp cfg
            (rlRunKey (cfg.rlWindow : α) cfg.rlMax s₀ k (t₀ :: rest)).1
            n fresh req inner).1.headers "retry-after"
          = some (intToStr cfg.rlWindow) ∧
        bGet (gatewayApp cfg
            (rlRunKey (cfg.rlWindow : α) cfg.rlMax s₀ k (t₀ :: rest)).1
            n fresh req inner).2 k = t₀ :: rest) ∧
    (∀ (s : Buckets α) (k : String) (n : α),
        (∀ t ∈ bGet s k, t < n - (cfg.rlWindow : α)) →
        1 ≤ cfg.rlMax →
        (rlAdmit (cfg.rlWindow : α) cfg.rlMax s k n).1 = true ∧
        bGet (rlAdmit (cfg.rlWindow : α) cfg.rlMax s k n).2 k = [n]) ∧
    (∀ (s : Buckets α) (k k' : String) (n n' : α), k' ≠ k →
        bGet (rlAdmit (cfg.rlWindow : α) cfg.rlMax s k n).2 k' = bGet s k' ∧
        (rlAdmit (cfg.rlWindow : α) cfg.rlMax
            (rlAdmit (cfg.rlWindow : α) cfg.rlMax s k n).2 k' n').1
          = (rlAdmit (cfg.rlWindow : α) cfg.rlMax s k' n').1) := by
  set W : α := (cfg.rlWindow : α) with hW
  refine ⟨?_, ?_, ?_⟩
  · intro s₀ k t₀ rest n req fresh inner hen hkey hempty hlen hsorted hle hwin
    have hhead : ∀ x ∈ t₀ :: rest, t₀ ≤ x := by
      intro x hx
      rcases List.mem_cons.mp hx with h | h
      · exact h.ge
      · exact (List.pairwise_cons.mp hsorted).1 x h
    have hnoexp : ∀ t ∈ t₀ :: rest, ∀ x ∈ t₀ :: rest, ¬ (x < t - W) := by
      intro t ht x hx
      have h1 : t ≤ n := hle t ht
      have h2 : t₀ ≤ x := hhead x hx
      have : t - W ≤ x := by
        calc t - W ≤ n - W := by exact sub_le_sub_right h1 W
        _ ≤ t₀ := hwin
        _ ≤ x := h2
      exact not_lt.mpr this
    have hfill := rlRunKey_fill W cfg.rlMax k (t₀ :: rest) s₀
      (by rw [hempty]; simp only [List.length_nil, List.length_cons]; omega)
      (by rw [hempty]; simpa using hnoexp)
    set s₁ := (rlRunKey W cfg.rlMax s₀ k (t₀ :: rest)).1 with hs₁
    have hbucket : bGet s₁ k = t₀ :: rest := by
      rw [hfill.2.1, hempty]; rfl
    have hdeny := rlAdmit_denies W cfg.rlMax s₁ k n
      (by
        rw [hbucket]
        intro t ht
        have h2 : t₀ ≤ t := hhead t ht
        exact not_lt.mpr (le_trans hwin h2))
      (by rw [hbucket]; simp only [List.length_cons]; omega)
    refine ⟨hfill.1, ?_, ?_, ?_⟩
    · simp [gatewayApp, hen, hkey, hdeny]
    · simp [gatewayApp, hen, hkey, hdeny, headerGet]
    · simp only [gatewayApp, hen, if_true, hkey, hdeny]
      simp only [if_false, Bool.false_eq_true]
      rw [bGet_bSet_self]
      exact hbucket
  · intro s k n hexp hcap
    have hdrop : rlPrune W n (bGet s k) = [] :=
      dropWhile_eq_nil_of_true _ _ (fun t ht => by simpa using hexp t ht)
    constructor
    · simp only [rlAdmit, hdrop]
      rw [if_neg (by simp only [List.length_nil]; omega)]
    · simp only [rlAdmit, hdrop]
      rw [if_neg (by simp only [List.length_nil]; omega)]
      simpa using bGet_bSet_self s k [n]
  · intro s k k' n n' hk
    refine ⟨rlAdmit_other W cfg.rlMax s k k' n hk, ?_⟩
    exact rlAdmit_decision_congr W cfg.rlMax s _ k' n'
      (rlAdmit_other W cfg.rlMax s k k' n hk)

/-- C3 witness: window 60, capacity 2, key `"a"` (from the authorization
header): two admissions at times 0 and 1 succeed, the third attempt at time
30 is denied with 429 and `Retry-After: 60` leaving the bucket `[0, 1]`; at
time 100 (window elapsed) the key is admitted again with bucket `[100]`; and
an admission step for `"a"` leaves key `"b"`'s bucket and decision
unchanged. -/
theorem C3_sliding_window_rate_limiter_witness :
    (rlRunKey (α := ℤ) 60 2 [] "a" [0, 1]).2 = true ∧
    (gatewayApp (α := ℤ)
        { maxRequestBytes := 0, rlEnabled := true, rlWindow := 60, rlMax := 2 }
        (rlRunKey (α := ℤ) 60 2 [] "a" [0, 1]).1 30 "f"
        { headers := [("authorization", "a")], clientHost := "h" }
        (fun _ => Except.ok { status := 200, headers := [], body := none })).1.status
      = 429 ∧
    headerGet ((gatewayApp (α := ℤ)
        { maxRequestBytes := 0, rlEnabled := true, rlWindow := 60, rlMax := 2 }
        (rlRunKey (α := ℤ) 60 2 [] "a" [0, 1]).1 30 "f"
        { headers := [("authorization", "a")], clientHost := "h" }
        (fun _ => Except.ok { status := 200, headers := [], body := none })).1.headers)
      "retry-after" = some "60" ∧
    bGet ((gatewayApp (α := ℤ)
        { maxRequestBytes := 0, rlEnabled := true, rlWindow := 60, rlMax := 2 }
        (rlRunKey (α := ℤ) 60 2 [] "a" [0, 1]).1 30 "f"
        { headers := [("authorization", "a")], clientHost := "h" }
        (fun _ => Except.ok { status := 200, headers := [], body := none })).2)
      "a" = [0, 1] ∧
    (rlAdmit (α := ℤ) 60 2 [("a", [-100])] "a" 30).1 = true ∧
    bGet (rlAdmit (α := ℤ) 60 2 [("a", [-100])] "a" 30).2 "a" = [30] ∧
    bGet (rlAdmit (α := ℤ) 60 2 [("a", [0]), ("b", [5])] "a" 30).2 "b" = [5] ∧
    (rlAdmit (α := ℤ) 60 2
        (rlAdmit (α := ℤ) 60 2 [("a", [0]), ("b", [5])] "a" 30).2 "b" 31).1
      = (rlAdmit (α := ℤ) 60 2 [("a", [0]), ("b", [5])] "b" 31).1 := by
  have h := C3_sliding_window_rate_limiter (α := ℤ)
    { maxRequestBytes := 0, rlEnabled := true, rlWindow := 60, rlMax := 2 }
  have h1 := h.1 [] "a" 0 [1] 30
    { headers := [("authorization", "a")], clientHost := "h" } "f"
    (fun _ => Except.ok { status := 200, headers := [], body := none })
    rfl (by decide) rfl rfl (by decide) (by decide) (by decide)
  have h2 := h.2.1 [("a", [-100])] "a" 30 (by decide) (by decide)
  have h3 := h.2.2 [("a", [0]), ("b", [5])] "a" "b" 30 31 (by decide)
  exact ⟨h1.1, h1.2.1, h1.2.2.1, h1.2.2.2, h2.1, h2.2, h3.1, h3.2⟩

/-- On a time-sorted bucket the prune loop removes every expired timestamp:
whatever survives is within the trailing window. -/
lemma rlPrune_sorted_complete {α : Type} [LinearOrderedRing α] (W now : α) :
    ∀ (l : List α), l.Pairwise (· ≤ ·) → ∀ t ∈ rlPrune W now l, ¬ (t < now - W)
  | [], _, t, ht => by simp [rlPrune] at ht
  | x :: xs, hp, t, ht => by
    by_cases hx : x < now - W
    · have heq : rlPrune W now (x :: xs) = rlPrune W now xs := by
        simp [rlPrune, List.dropWhile, hx]
      rw [heq] at ht
      exact rlPrune_sorted_complete W now xs (List.pairwise_cons.mp hp).2 t ht
    · have heq : rlPrune W now (x :: xs) = x :: xs := by
        simp [rlPrune, List.dropWhile, hx]
      rw [heq] at ht
      rcases List.mem_cons.mp ht with h | h
      · rw [h]; exact hx
      · have hxy := (List.pairwise_cons.mp hp).1 t h
        intro hlt
        exact hx (lt_of_le_of_lt hxy hlt)

/-- C9: `_maybe_cleanup` sweeps at most once per interval and not on every
call — within `cleanup_interval` of the previous sweep it is a no-op, and
right after a sweep a further call within the interval is again a no-op.  A
sweep records `now`, prunes every key's bucket against the trailing window
(on a time-sorted bucket this removes exactly the timestamps older than
`now - W`), and removes every key whose bucket became empty, so that the
bucket map holds no key with an empty window afterwards; every surviving
entry is the pruned bucket of an original key, and every original key whose
pruned bucket is non-empty survives. -/
theorem C9_periodic_sweep {α : Type} [LinearOrderedRing α]
    (interval W now : α) (s : CleanState α) :
    (now - s.lastCleanup < interval → maybe_cleanup interval W now s = s) ∧
    (¬ (now - s.lastCleanup < interval) →
      (maybe_cleanup interval W now s).lastCleanup = now ∧
      (maybe_cleanup interval W now s).buckets
        = (s.buckets.map (fun kv => (kv.1, rlPrune W now kv.2))).filter
            (fun kv => !kv.2.isEmpty) ∧
      (∀ kv ∈ (maybe_cleanup interval W now s).buckets, kv.2 ≠ []) ∧
      (∀ kv ∈ (maybe_cleanup interval W now s).buckets,
        ∃ kv₀ ∈ s.buckets, kv.1 = kv₀.1 ∧ kv.2 = rlPrune W now kv₀.2) ∧
      (∀ kv₀ ∈ s.buckets, rlPrune W now kv₀.2 ≠ [] →
        (kv₀.1, rlPrune W now kv₀.2) ∈ (maybe_cleanup interval W now s).buckets) ∧
      (∀ kv₀ ∈ s.buckets, kv₀.2.Pairwise (· ≤ ·) →
        ∀ t ∈ rlPrune W now kv₀.2, ¬ (t < now - W))) ∧
    (∀ n2 : α, ¬ (now - s.lastCleanup < interval) → n2 - now < interval →
      maybe_cleanup interval W n2 (maybe_cleanup interval W now s)
        = maybe_cleanup interval W now s) := by
  refine ⟨?_, ?_, ?_⟩
  · intro h
    simp [maybe_cleanup, h]
  · intro h
    have hb : (maybe_cleanup interval W now s).buckets
        = (s.buckets.map (fun kv => (kv.1, rlPrune W now kv.2))).filter
            (fun kv => !kv.2.isEmpty) := by
      simp [maybe_cleanup, h]
    refine ⟨by simp [maybe_cleanup, h], hb, ?_, ?_, ?_, ?_⟩
    · intro kv hkv
      rw [hb] at hkv
      have := (List.mem_filter.mp hkv).2
      simpa using this
    · intro kv hkv
      rw [hb] at hkv
      have hmem := (List.mem_filter.mp hkv).1
      rcases List.mem_map.mp hmem with ⟨kv₀, hkv₀, hEq⟩
      exact ⟨kv₀, hkv₀, by rw [← hEq], by rw [← hEq]⟩
    · intro kv₀ hkv₀ hne
      rw [hb]
      refine List.mem_filter.mpr ⟨List.mem_map.mpr ⟨kv₀, hkv₀, rfl⟩, by simpa using hne⟩
    · intro kv₀ _ hsorted
      exact rlPrune_sorted_complete W now kv₀.2 hsorted
  · intro n2 h hn2
    have hm : maybe_cleanup interval W now s
        = { lastCleanup := now,
            buckets := (s.buckets.map (fun kv => (kv.1, rlPrune W now kv.2))).filter
              (fun kv => !kv.2.isEmpty) } := by
      simp [maybe_cleanup, h]
    rw [hm]
    unfold maybe_cleanup
    rw [if_pos (by simpa using hn2)]

/-- C9 witness: a call 10s after the last sweep (interval 60) is a no-op; a
sweep at time 100 records 100, drops key `"a"` (whose only timestamp 10
expired against window 60) and keeps key `"b"` pruned, leaving no empty
bucket. -/
theorem C9_periodic_sweep_witness :
    maybe_cleanup (α := ℤ) 60 60 100
        { lastCleanup := 90, buckets := [("a", [10])] }
      = { lastCleanup := 90, buckets := [("a", [10])] } ∧
    (maybe_cleanup (α := ℤ) 60 60 100
        { lastCleanup := 0, buckets := [("a", [10]), ("b", [30, 95])] }).lastCleanup
      = 100 ∧
    (maybe_cleanup (α := ℤ) 60 60 100
        { lastCleanup := 0, buckets := [("a", [10]), ("b", [30, 95])] }).buckets
      = [("b", [95])] ∧
    (∀ kv ∈ (maybe_cleanup (α := ℤ) 60 60 100
        { lastCleanup := 0, buckets := [("a", [10]), ("b", [30, 95])] }).buckets,
      kv.2 ≠ []) := by
  have h := C9_periodic_sweep (α := ℤ) 60 60 100
    { lastCleanup := 0, buckets := [("a", [10]), ("b", [30, 95])] }
  have h0 := C9_periodic_sweep (α := ℤ) 60 60 100
    { lastCleanup := 90, buckets := [("a", [10])] }
  refine ⟨h0.1 (by decide), (h.2.1 (by decide)).1, ?_, (h.2.1 (by decide)).2.2.1⟩
  exact ((h.2.1 (by decide)).2.1).trans (by rfl)

/-- C7: for every streaming request, `event_gen` ends with the terminal
`data: [DONE]` event on success and after a mid-stream failure alike; a
failure after `cs` fragments produces exactly the fragment events, then one
in-band error event, then the terminal marker; the error event's payload is
the `json.dumps` of `{"error": "stream_error", "message": ..., "request_id":
...}` (shown parsing back to exactly that object at a concrete instance);
and the HTTP response is committed with status 200 and the SSE media type
regardless of the outcome. -/
theorem C7_stream_terminal_marker (rid : String) (outcome : StreamOutcome) :
    (event_gen rid outcome).getLast? = some "data: [DONE]\n\n" ∧
    (proxy_stream_response rid outcome).status = 200 ∧
    (proxy_stream_response rid outcome).mediaType = "text/event-stream" ∧
    (∀ cs msg, outcome = StreamOutcome.failAfter cs msg →
        event_gen rid outcome
          = cs.map (fun c => "data: " ++ c ++ "\n\n")
            ++ ["data: " ++ dumpsStreamErr msg rid ++ "\n\n", "data: [DONE]\n\n"]) ∧
    parseJson (dumpsStreamErr "boom" "rid-1")
      = some (Json.obj [("error", Json.str "stream_error"),
                        ("message", Json.str "boom"),
                        ("request_id", Json.str "rid-1")]) := by
  refine ⟨?_, rfl, rfl, ?_, rfl⟩
  · cases outcome with
    | ok cs =>
      simp [event_gen]
    | failAfter cs msg =>
      have : (cs.map (fun c => "data: " ++ c ++ "\n\n") ++
          ["data: " ++ dumpsStreamErr msg rid ++ "\n\n", "data: [DONE]\n\n"])
          = (cs.map (fun c => "data: " ++ c ++ "\n\n") ++
            ["data: " ++ dumpsStreamErr msg rid ++ "\n\n"]) ++ ["data: [DONE]\n\n"] := by
        simp
      simp only [event_gen, this]
      simp
  · intro cs msg h
    rw [h]
    rfl

/-- C7 witness: a stream that yields `"ab"` then fails with message
`"boom"` produces exactly the fragment event, the in-band error event, and
the terminal marker, under status 200. -/
theorem C7_stream_terminal_marker_witness :
    event_gen "rid-1" (StreamOutcome.failAfter ["ab"] "boom")
      = ["data: ab\n\n",
         "data: \x7b\"error\": \"stream_error\", \"message\": \"boom\", \"request_id\": \"rid-1\"\x7d\n\n",
         "data: [DONE]\n\n"] ∧
    (event_gen "rid-1" (StreamOutcome.failAfter ["ab"] "boom")).getLast?
      = some "data: [DONE]\n\n" ∧
    (proxy_stream_response "rid-1" (StreamOutcome.failAfter ["ab"] "boom")).status
      = 200 := by
  have h := C7_stream_terminal_marker "rid-1" (StreamOutcome.failAfter ["ab"] "boom")
  exact ⟨(h.2.2.2.1 ["ab"] "boom" rfl).trans (by rfl), h.1, h.2.1⟩

/-- A malformed payload (not the sentinel, not JSON) is silently skipped. -/
lemma processPayload_malformed (s : String) (hdone : s ≠ "[DONE]")
    (hparse : parseJson s = none) : processPayload s = LineStep.skip := by
  unfold processPayload
  rw [if_neg hdone, hparse]

/-- Whatever the loop yields was truthy (payload level). -/
lemma processPayload_yielded (ds : String) (c : Json)
    (h : processPayload ds = LineStep.yielded c) : pyTruthy c = true := by
  simp only [processPayload] at h
  repeat' split at h
  all_goals (try cases h)
  all_goals assumption

/-- Whatever the loop yields was truthy (line level). -/
lemma processLine_yielded (l : String) (c : Json)
    (h : processLine l = LineStep.yielded c) : pyTruthy c = true := by
  by_cases h1 : l = ""
  · rw [processLine, if_pos h1] at h
    cases h
  · rw [processLine, if_neg h1] at h
    exact processPayload_yielded _ c h

/-- Every fragment a stream run yields was truthy when extracted. -/
lemma runStream_yields_truthy :
    ∀ (lines : List String) (c : Json), c ∈ (runStream lines).1 → pyTruthy c = true
  | [], _, h => by simp [runStream] at h
  | l :: rest, c, h => by
    unfold runStream at h
    cases hl : processLine l with
    | skip => rw [hl] at h; exact runStream_yields_truthy rest c h
    | done => rw [hl] at h; simp at h
    | raised => rw [hl] at h; simp at h
    | yielded c0 =>
      rw [hl] at h
      simp only [List.mem_cons] at h
      rcases h with h | h
      · rw [h]
        exact processLine_yielded l c0 hl
      · exact runStream_yields_truthy rest c h

/-- A `data: ` prefix is stripped (and the remainder `strip()`ed) before the
payload is processed. -/
lemma processLine_data_append (s : String) :
    processLine ("data: " ++ s) = processPayload (pyStrip s) := by
  have htl : ("data: " ++ s).toList
      = 'd' :: 'a' :: 't' :: 'a' :: ':' :: ' ' :: s.toList := rfl
  have hne : ¬ (("data: " ++ s) = "") := by
    intro h
    have h2 : ("data: " ++ s).toList = [] := by rw [h]; rfl
    rw [htl] at h2
    cases h2
  have hstart : pyStarts ("data: " ++ s) "data: " = true := by
    show listLeads "data: ".toList ("data: " ++ s).toList = true
    rw [htl]
    rfl
  have hdrop : pyDropChars 6 ("data: " ++ s) = s := rfl
  unfold processLine
  rw [if_neg hne, if_pos hstart, hdrop]

/-- C5: the `chat_stream` line loop skips blank lines; strips an optional
`data: ` prefix before processing the payload; treats `data: [DONE]` as the
stream terminator; silently discards (yielding nothing, raising nothing) any
non-blank unprefixed line that is not the sentinel and fails to parse as
JSON; only ever yields truthy (for strings: non-empty) `content` values;
and on the spec's four-line example yields exactly `"hel"` and `"lo"`
(concatenation `"hello"`), the malformed line producing no fragment and no
failure, with the run ended by the `[DONE]` sentinel. -/
theorem C5_stream_line_protocol :
    (∀ rest, runStream ("" :: rest) = runStream rest) ∧
    (∀ s : String, processLine ("data: " ++ s) = processPayload (pyStrip s)) ∧
    (∀ rest, runStream ("data: [DONE]" :: rest) = ([], StreamEnd.doneSentinel)) ∧
    (∀ (line : String) (rest : List String), line ≠ "" →
        pyStarts line "data: " = false → line ≠ "[DONE]" →
        parseJson line = none →
        runStream (line :: rest) = runStream rest) ∧
    (∀ (lines : List String), ∀ c ∈ (runStream lines).1, pyTruthy c = true) ∧
    runStream ["data: \x7b\"choices\":[\x7b\"delta\":\x7b\"content\":\"hel\"\x7d\x7d]\x7d",
        "data: not-json",
        "\x7b\"choices\":[\x7b\"delta\":\x7b\"content\":\"lo\"\x7d\x7d]\x7d",
        "data: [DONE]"]
      = ([Json.str "hel", Json.str "lo"], StreamEnd.doneSentinel) ∧
    fragConcat (runStream
        ["data: \x7b\"choices\":[\x7b\"delta\":\x7b\"content\":\"hel\"\x7d\x7d]\x7d",
         "data: not-json",
         "\x7b\"choices\":[\x7b\"delta\":\x7b\"content\":\"lo\"\x7d\x7d]\x7d",
         "data: [DONE]"]).1
      = "hello" := by
  refine ⟨fun rest => rfl, processLine_data_append, fun rest => rfl, ?_,
    runStream_yields_truthy, rfl, rfl⟩
  intro line rest h1 h2 h3 h4
  have hline : processLine line = LineStep.skip := by
    unfold processLine
    rw [if_neg h1, if_neg (by simp [h2])]
    exact processPayload_malformed line h3 h4
  simp [runStream, hline]

/-- C5 witness: the malformed-line conjunct applied at `"not-json"`: the
line yields nothing and raises nothing. -/
theorem C5_stream_line_protocol_witness :
    runStream ["not-json"] = runStream [] := by
  exact C5_stream_line_protocol.2.2.2.1 "not-json" [] (by decide) rfl (by decide) rfl
